import Mathlib

/-!
Verification of the LiveDepth monocular depth streaming server
(`server.py`, `app_main.py`) against its specification.

Numeric values that the Python code holds in IEEE floats are modelled as
exact rationals (`ℚ`); machine byte strings are modelled as `List Nat`
with each element intended to lie in `[0, 256)`.
-/

namespace LiveDepth

/-- Default `EMA_ALPHA` from `server.py` (env default "0.2"). -/
def EMA_ALPHA : ℚ := 2/10

/-- Default `CLAMP_NEAR` from `server.py` (env default "0.2"). -/
def CLAMP_NEAR : ℚ := 2/10

/-- Default `CLAMP_FAR` from `server.py` (env default "1.0"). -/
def CLAMP_FAR : ℚ := 1

/-- The resulting parameter triple of a `set_params` control message:
`{emaAlpha, clampNear, clampFar}`. -/
structure ParameterSet where
  emaAlpha : ℚ
  clampNear : ℚ
  clampFar : ℚ
  deriving Repr, DecidableEq

/-- Embedding of `_clamp_params(ema, near_, far_)` (server.py lines 154-166).
`none` stands for a Python `None` argument (a missing field in the
`set_params` message, `data.get(..., None)`); the code then substitutes the
module defaults.  Order of operations follows the source exactly:
default substitution, ordering fix (`far_ = near_ + 1e-3` when
`far_ <= near_`), clamp of `ema` into `[0,1]`, `near_ = max(0, near_)`,
`far_ = max(near_ + 1e-3, far_)`. -/
def clamp_params (ema near far : Option ℚ) : ParameterSet :=
  let ema0 := ema.getD EMA_ALPHA
  let near0 := near.getD CLAMP_NEAR
  let far0 := far.getD CLAMP_FAR
  let far1 := if far0 ≤ near0 then near0 + 1/1000 else far0
  let ema1 := max 0 (min 1 ema0)
  let near1 := max 0 near0
  let far2 := max (near1 + 1/1000) far1
  ⟨ema1, near1, far2⟩

/-- Embedding of the `set_params` branch of `control_loop`
(server.py lines 337-354): the globals `EMA_ALPHA/CLAMP_NEAR/CLAMP_FAR`
are overwritten with the result of `_clamp_params` applied to the three
optional message fields. -/
def set_params (emaField nearField farField : Option ℚ) : ParameterSet :=
  clamp_params emaField nearField farField

/-- C1: after every `set_params`, whatever the supplied optional fields,
the resulting `ParameterSet` satisfies `clampFar > clampNear` and
`0 ≤ emaAlpha ≤ 1`; and the concrete input `clamp_near = 0.3`,
`clamp_far = 0.1` is corrected to `clamp_far = 0.301`. -/
theorem setParams_invariant :
    (∀ e n f : Option ℚ,
      (set_params e n f).clampNear < (set_params e n f).clampFar ∧
      0 ≤ (set_params e n f).emaAlpha ∧ (set_params e n f).emaAlpha ≤ 1) ∧
    set_params none (some (3/10)) (some (1/10)) =
      ⟨2/10, 3/10, 301/1000⟩ := by
  constructor
  · intro e n f
    refine ⟨?_, le_max_left _ _, ?_⟩
    · calc (set_params e n f).clampNear
          < (set_params e n f).clampNear + 1/1000 := by norm_num
        _ ≤ (set_params e n f).clampFar := le_max_left _ _
    · exact max_le (by norm_num) (min_le_left _ _)
  · norm_num [set_params, clamp_params, EMA_ALPHA, CLAMP_NEAR, CLAMP_FAR,
      ParameterSet.mk.injEq, max_def, min_def]

/-! ### Depth normalization (`normalize_depth`, server.py lines 72-79) -/

/-- `np.min` over a flat array, modelled on the flattened value list.
Empty input is given the junk value `0` (NumPy raises there; all claims
about normalization are per-element and hence vacuous on empty input). -/
def listMin : List ℚ → ℚ
  | [] => 0
  | x :: xs => xs.foldl min x

/-- `np.max` over a flat array, junk value `0` on empty input. -/
def listMax : List ℚ → ℚ
  | [] => 0
  | x :: xs => xs.foldl max x

/-- Line 75: `d = d - np.min(d)`. -/
def shifted (d : List ℚ) : List ℚ := d.map fun x => x - listMin d

/-- Lines 76-78: `maxv = np.max(d); if maxv > 1e-6: d = d / maxv`. -/
def unitize (d : List ℚ) : List ℚ :=
  if 1/1000000 < listMax (shifted d) then
    (shifted d).map fun x => x / listMax (shifted d)
  else shifted d

/-- Embedding of `normalize_depth(d)` on the value list of an already
sanitized depth array (line 74 has replaced every non-finite entry by `0`,
so the input here is an arbitrary list of rationals).  The clamp bounds
are the values of the globals `CLAMP_NEAR`/`CLAMP_FAR` at call time,
passed explicitly.  Line 79: `CLAMP_NEAR + (CLAMP_FAR - CLAMP_NEAR) * d`. -/
def normalize_depth (near far : ℚ) (d : List ℚ) : List ℚ :=
  (unitize d).map fun x => near + (far - near) * x

lemma foldl_min_le_init (l : List ℚ) (a : ℚ) : l.foldl min a ≤ a := by
  induction l generalizing a with
  | nil => exact le_refl a
  | cons x xs ih => exact le_trans (ih (min a x)) (min_le_left a x)

lemma le_foldl_max_init (l : List ℚ) (a : ℚ) : a ≤ l.foldl max a := by
  induction l generalizing a with
  | nil => exact le_refl a
  | cons x xs ih => exact le_trans (le_max_left a x) (ih (max a x))

lemma foldl_min_le_mem : ∀ (l : List ℚ) (a x : ℚ), x ∈ l → l.foldl min a ≤ x
  | [], _, _, hx => absurd hx (List.not_mem_nil _)
  | y :: ys, a, x, hx => by
    simp only [List.foldl]
    rcases List.mem_cons.mp hx with h | h
    · subst h
      exact le_trans (foldl_min_le_init ys (min a x)) (min_le_right a x)
    · exact foldl_min_le_mem ys (min a y) x h

lemma mem_le_foldl_max : ∀ (l : List ℚ) (a x : ℚ), x ∈ l → x ≤ l.foldl max a
  | [], _, _, hx => absurd hx (List.not_mem_nil _)
  | y :: ys, a, x, hx => by
    simp only [List.foldl]
    rcases List.mem_cons.mp hx with h | h
    · subst h
      exact le_trans (le_max_right a x) (le_foldl_max_init ys (max a x))
    · exact mem_le_foldl_max ys (max a y) x h

lemma listMin_le_mem (l : List ℚ) (x : ℚ) (hx : x ∈ l) : listMin l ≤ x := by
  match l, hx with
  | y :: ys, hx =>
    rcases List.mem_cons.mp hx with h | h
    · subst h; exact foldl_min_le_init ys x
    · exact foldl_min_le_mem ys y x h

lemma mem_le_listMax (l : List ℚ) (x : ℚ) (hx : x ∈ l) : x ≤ listMax l := by
  match l, hx with
  | y :: ys, hx =>
    rcases List.mem_cons.mp hx with h | h
    · subst h; exact le_foldl_max_init ys x
    · exact mem_le_foldl_max ys y x h

lemma unitize_bounds (d : List ℚ) (x : ℚ) (hx : x ∈ unitize d) :
    0 ≤ x ∧ x ≤ 1 := by
  have hsh : ∀ w ∈ shifted d, 0 ≤ w ∧ w ≤ listMax (shifted d) := by
    intro w hw
    refine ⟨?_, mem_le_listMax _ _ hw⟩
    obtain ⟨w0, hw0, rfl⟩ := List.mem_map.mp hw
    have := listMin_le_mem d w0 hw0
    linarith
  unfold unitize at hx
  by_cases hc : (1:ℚ)/1000000 < listMax (shifted d)
  · rw [if_pos hc] at hx
    obtain ⟨w, hw, rfl⟩ := List.mem_map.mp hx
    obtain ⟨hw0, hwM⟩ := hsh w hw
    have hMpos : (0:ℚ) < listMax (shifted d) := lt_trans (by norm_num) hc
    exact ⟨div_nonneg hw0 hMpos.le, (div_le_one hMpos).mpr hwM⟩
  · rw [if_neg hc] at hx
    obtain ⟨hw0, hwM⟩ := hsh x hx
    have : listMax (shifted d) ≤ 1/1000000 := not_lt.mp hc
    exact ⟨hw0, by linarith⟩

/-- C2: for every (sanitized) depth value list and every clamp pair with
`clampFar > clampNear`, every element of the normalized output lies in
`[clampNear, clampFar]` inclusive. -/
theorem normalize_depth_range (near far : ℚ) (h : near < far) (d : List ℚ) :
    ∀ x ∈ normalize_depth near far d, near ≤ x ∧ x ≤ far := by
  intro x hx
  obtain ⟨z, hz, rfl⟩ := List.mem_map.mp hx
  obtain ⟨hz0, hz1⟩ := unitize_bounds d z hz
  constructor
  · nlinarith
  · nlinarith

/-- Witness for `normalize_depth_range`: on input `[0, 1]` with clamps
`(0.2, 1)`, the element `1` of the output is inside the clamp range. -/
theorem normalize_depth_range_witness : (2:ℚ)/10 ≤ 1 ∧ (1:ℚ) ≤ 1 :=
  normalize_depth_range (2/10) 1 (by norm_num) [0, 1] 1 (by
    norm_num [normalize_depth, unitize, shifted, listMin, listMax, List.foldl])

/-! ### Wire format (`frame_stream` lines 258-272, `make_test_pattern` 81-92) -/

/-- `struct.pack("<I", n)`: four little-endian bytes. -/
def u32le (n : Nat) : List Nat :=
  [n % 256, n / 256 % 256, n / 65536 % 256, n / 16777216 % 256]

/-- Line 267: `pad = (4 - (len(header_bytes) & 3)) & 3`.  On natural
numbers `len & 3 = len % 4` and `(4 - len % 4) & 3 = (4 - len % 4) % 4`. -/
def padOf (n : Nat) : Nat := (4 - n % 4) % 4

/-- Lines 265-272: the assembled binary frame
`header_len ++ header_bytes ++ pad_bytes ++ depth_bytes ++ rgb_bytes`.
`encF32` abstracts the IEEE-754 little-endian float32 encoding of one
depth value (`np.float32.tobytes`); each color pixel contributes its
three `uint8` channel bytes. -/
def buildBlob (encF32 : ℚ → List Nat) (headerBytes : List Nat)
    (depth : List ℚ) (rgb : List (Nat × Nat × Nat)) : List Nat :=
  u32le headerBytes.length ++ headerBytes ++
    List.replicate (padOf headerBytes.length) 0 ++
    (depth.map encF32).flatten ++
    (rgb.map fun t => [t.1, t.2.1, t.2.2]).flatten

/-- NumPy slicing `l[::s]`: keep indices `0, s, 2s, ...`. -/
def everyNth (s : Nat) : List α → List α
  | [] => []
  | x :: xs => x :: everyNth s (xs.drop (s - 1))
termination_by l => l.length
decreasing_by simp [List.length_drop]; omega

/-- NumPy slicing `m[::s, ::s]` on a row-major 2-D array. -/
def subsample2D (s : Nat) (m : List (List α)) : List (List α) :=
  (everyNth s m).map (everyNth s)

/-- Real-pipeline frame (lines 250-272): the depth payload is the
subsampled smoothed depth `ema_depth[::STRIDE, ::STRIDE]` flattened
row-major, the color payload is `rgb_full[::STRIDE, ::STRIDE]`
flattened to pixels. -/
def frameBlobReal (encF32 : ℚ → List Nat) (headerBytes : List Nat) (s : Nat)
    (emaDepth : List (List ℚ)) (rgbFull : List (List (Nat × Nat × Nat))) :
    List Nat :=
  buildBlob encF32 headerBytes (subsample2D s emaDepth).flatten
    (subsample2D s rgbFull).flatten

/-- Truncating `uint8` cast of a float, `(x).astype(np.uint8)`. -/
def byteOf (x : ℚ) : Nat := (⌊x⌋).toNat % 256

/-- `np.linspace(a, b, n)`.  For `n = 1` the division by `n - 1 = 0`
yields `0` in `ℚ`, giving `[a]`, which matches NumPy. -/
def linspace (a b : ℚ) (n : Nat) : List ℚ :=
  (List.range n).map fun i : ℕ => a + (b - a) * (i : ℚ) / ((n : ℚ) - 1)

/-- Embedding of `make_test_pattern(t, w, h)` (lines 81-92), with the
transcendental `np.sin`/`np.cos` abstracted as function parameters `sn`,
`cs` and the clip bounds (globals `CLAMP_NEAR`/`CLAMP_FAR`) passed
explicitly.  `Z[i][j] = clip(1.5 + 0.5*(xs[j]*cos(angle) + ys[i]*sin(angle)))`
with `angle = 0.6*sin(0.7*t)`; the color array is the row-major list of
`(r,g,b)` byte triples from the three sine bands. -/
def make_test_pattern (sn cs : ℚ → ℚ) (near far t : ℚ) (w h : Nat) :
    List (List ℚ) × List (Nat × Nat × Nat) :=
  let xs := linspace (-1) 1 w
  let ys := linspace (-1) 1 h
  let angle := 3/5 * sn (t * 7/10)
  let Z := ys.map fun y => xs.map fun x =>
    min far (max near (3/2 + 1/2 * (x * cs angle + y * sn angle)))
  let rgb := (ys.map fun y => xs.map fun x =>
    (byteOf (255 * (1/2 + 1/2 * sn (628/100 * x + t))),
     byteOf (255 * (1/2 + 1/2 * sn (628/100 * y + t * 13/10))),
     byteOf (255 * (1/2 + 1/2 * sn (628/100 * (x + y) + t * 9/10))))).flatten
  (Z, rgb)

/-- Synthetic-pattern frame (lines 220-225 and 258-272): grid dims are
`w // STRIDE`, `h // STRIDE` as passed by the caller. -/
def frameBlobTest (encF32 : ℚ → List Nat) (headerBytes : List Nat)
    (sn cs : ℚ → ℚ) (near far t : ℚ) (w h : Nat) : List Nat :=
  buildBlob encF32 headerBytes
    (make_test_pattern sn cs near far t w h).1.flatten
    (make_test_pattern sn cs near far t w h).2

lemma everyNth_nil (s : Nat) : everyNth s ([] : List α) = [] := by
  simp [everyNth]

lemma everyNth_cons (s : Nat) (x : α) (xs : List α) :
    everyNth s (x :: xs) = x :: everyNth s (xs.drop (s - 1)) := by
  simp [everyNth]

lemma everyNth_length (s : Nat) (hs : 0 < s) :
    ∀ l : List α, (everyNth s l).length = (l.length + s - 1) / s
  | [] => by
    rw [everyNth_nil]
    simp only [List.length_nil]
    exact (Nat.div_eq_of_lt (by omega)).symm
  | x :: xs => by
    have ih := everyNth_length s hs (xs.drop (s - 1))
    rw [everyNth_cons]
    simp only [List.length_cons, List.length_drop] at *
    rw [ih]
    have key : (xs.length - (s - 1) + s - 1) / s = xs.length / s := by
      rcases le_or_lt (s - 1) xs.length with h | h
      · congr 1; omega
      · rw [Nat.div_eq_of_lt (by omega), Nat.div_eq_of_lt (by omega)]
    rw [key]
    have : xs.length + 1 + s - 1 = xs.length + s := by omega
    rw [this, Nat.add_div_right _ hs]
termination_by l => l.length
decreasing_by simp [List.length_drop]; omega

lemma everyNth_mem (s : Nat) :
    ∀ (l : List α) (x : α), x ∈ everyNth s l → x ∈ l
  | [], _, hx => by rw [everyNth_nil] at hx; exact absurd hx (List.not_mem_nil _)
  | y :: ys, x, hx => by
    rw [everyNth_cons] at hx
    rcases List.mem_cons.mp hx with h | h
    · exact h ▸ List.mem_cons_self y ys
    · exact List.mem_cons_of_mem y
        (List.drop_subset _ _ (everyNth_mem s (ys.drop (s - 1)) x h))
termination_by l => l.length
decreasing_by simp [List.length_drop]; omega

lemma join_const_length {α : Type u} (c : Nat) :
    ∀ L : List (List α), (∀ r ∈ L, r.length = c) → L.flatten.length = c * L.length
  | [], _ => by simp
  | r :: rs, h => by
    have hr := h r (List.mem_cons_self r rs)
    have ih := join_const_length c rs fun x hx => h x (List.mem_cons_of_mem r hx)
    simp only [List.flatten_cons, List.length_append, List.length_cons, hr, ih]
    ring

lemma map_enc_join_length (encF32 : ℚ → List Nat)
    (hEnc : ∀ x, (encF32 x).length = 4) (l : List ℚ) :
    ((l.map encF32).flatten).length = 4 * l.length := by
  have := join_const_length 4 (l.map encF32) (by
    intro r hr
    obtain ⟨x, _, rfl⟩ := List.mem_map.mp hr
    exact hEnc x)
  simpa using this

lemma map_rgb_join_length (l : List (Nat × Nat × Nat)) :
    ((l.map fun t => [t.1, t.2.1, t.2.2]).flatten).length = 3 * l.length := by
  have := join_const_length 3 (l.map fun t => [t.1, t.2.1, t.2.2]) (by
    intro r hr
    obtain ⟨x, _, rfl⟩ := List.mem_map.mp hr
    rfl)
  simpa using this

lemma subsample2D_join_length (s : Nat) (hs : 0 < s) (w : Nat)
    (m : List (List α)) (hrect : ∀ r ∈ m, r.length = w) :
    (subsample2D s m).flatten.length =
      ((w + s - 1) / s) * ((m.length + s - 1) / s) := by
  unfold subsample2D
  rw [join_const_length ((w + s - 1) / s) _ (by
    intro r hr
    obtain ⟨r0, hr0, rfl⟩ := List.mem_map.mp hr
    rw [everyNth_length s hs, hrect r0 (everyNth_mem s m r0 hr0)])]
  rw [List.length_map]
  rw [everyNth_length s hs]

lemma buildBlob_length (encF32 : ℚ → List Nat)
    (hEnc : ∀ x, (encF32 x).length = 4) (headerBytes : List Nat)
    (depth : List ℚ) (rgb : List (Nat × Nat × Nat)) :
    (buildBlob encF32 headerBytes depth rgb).length =
      4 + headerBytes.length + padOf headerBytes.length +
        4 * depth.length + 3 * rgb.length := by
  unfold buildBlob
  simp only [List.length_append, u32le, List.length_cons, List.length_nil,
    List.length_replicate, map_enc_join_length encF32 hEnc,
    map_rgb_join_length]

lemma linspace_length (a b : ℚ) (n : Nat) : (linspace a b n).length = n := by
  rw [linspace, List.length_map, List.length_range]

lemma make_test_pattern_depth_length (sn cs : ℚ → ℚ) (near far t : ℚ)
    (w h : Nat) :
    (make_test_pattern sn cs near far t w h).1.flatten.length = w * h := by
  unfold make_test_pattern
  simp only
  rw [join_const_length w _ (by
    intro r hr
    obtain ⟨y, _, rfl⟩ := List.mem_map.mp hr
    rw [List.length_map, linspace_length])]
  rw [List.length_map, linspace_length, Nat.mul_comm]

lemma make_test_pattern_rgb_length (sn cs : ℚ → ℚ) (near far t : ℚ)
    (w h : Nat) :
    (make_test_pattern sn cs near far t w h).2.length = w * h := by
  unfold make_test_pattern
  simp only
  rw [join_const_length w _ (by
    intro r hr
    obtain ⟨y, _, rfl⟩ := List.mem_map.mp hr
    rw [List.length_map, linspace_length])]
  rw [List.length_map, linspace_length, Nat.mul_comm]

/-- C3: every emitted FrameBlob has total byte length exactly
`4 + headerLength + pad + 4*w*h + 3*w*h` where `(w, h)` are the
subsampled grid dimensions (the `w`/`h` the code writes into the header,
`hs, ws = d_norm.shape`), and `pad` is the smallest value making
`headerLength + pad` a multiple of 4 — for synthetic-pattern frames and
for real-pipeline frames alike. -/
theorem frameBlob_length (encF32 : ℚ → List Nat)
    (hEnc : ∀ x, (encF32 x).length = 4) (headerBytes : List Nat) :
    (∀ n, padOf n < 4 ∧ (n + padOf n) % 4 = 0 ∧
      ∀ p, (n + p) % 4 = 0 → padOf n ≤ p) ∧
    (∀ (sn cs : ℚ → ℚ) (near far t : ℚ) (w h : Nat),
      (frameBlobTest encF32 headerBytes sn cs near far t w h).length =
        4 + headerBytes.length + padOf headerBytes.length +
          4 * (w * h) + 3 * (w * h)) ∧
    (∀ (s : Nat), 0 < s → ∀ (w : Nat) (emaDepth : List (List ℚ))
      (rgbFull : List (List (Nat × Nat × Nat))),
      (∀ r ∈ emaDepth, r.length = w) → (∀ r ∈ rgbFull, r.length = w) →
      rgbFull.length = emaDepth.length →
      (frameBlobReal encF32 headerBytes s emaDepth rgbFull).length =
        4 + headerBytes.length + padOf headerBytes.length +
          4 * (((w + s - 1) / s) * ((emaDepth.length + s - 1) / s)) +
          3 * (((w + s - 1) / s) * ((emaDepth.length + s - 1) / s))) := by
  refine ⟨?_, ?_, ?_⟩
  · intro n
    unfold padOf
    refine ⟨by omega, by omega, ?_⟩
    intro p hp
    omega
  · intro sn cs near far t w h
    unfold frameBlobTest
    rw [buildBlob_length encF32 hEnc, make_test_pattern_depth_length,
      make_test_pattern_rgb_length]
  · intro s hs w emaDepth rgbFull hrectD hrectC hlen
    unfold frameBlobReal
    rw [buildBlob_length encF32 hEnc,
      subsample2D_join_length s hs w emaDepth hrectD,
      subsample2D_join_length s hs w rgbFull hrectC, hlen]

/-- Witness for `frameBlob_length`: a concrete real-pipeline frame with a
5-byte header (pad 3), stride 2 on a 3×3 grid (subsampled 2×2) has total
length `4 + 5 + 3 + 16 + 12 = 40`. -/
theorem frameBlob_length_witness :
    (frameBlobReal (fun _ => [0, 0, 0, 0]) [1, 2, 3, 4, 5] 2
      [[0, 0, 0], [0, 0, 0], [0, 0, 0]]
      [[(0,0,0), (0,0,0), (0,0,0)], [(0,0,0), (0,0,0), (0,0,0)],
       [(0,0,0), (0,0,0), (0,0,0)]]).length = 40 := by
  have h := (frameBlob_length (fun _ => [0, 0, 0, 0]) (fun _ => rfl)
      [1, 2, 3, 4, 5]).2.2 2 (by norm_num) 3
      [[0, 0, 0], [0, 0, 0], [0, 0, 0]]
      [[(0,0,0), (0,0,0), (0,0,0)], [(0,0,0), (0,0,0), (0,0,0)],
       [(0,0,0), (0,0,0), (0,0,0)]]
      (by intro r hr; fin_cases hr <;> rfl)
      (by intro r hr; fin_cases hr <;> rfl) rfl
  simpa [padOf] using h

/-! ### Frame-loop failure handling (`frame_stream`, lines 216-298)

One iteration of the `while True:` body is driven by the environment:
whether `cap` is `None`, whether `cap.read()` returned ok, and whether
the pipeline/send raised nothing, raised `websockets.ConnectionClosed`,
or raised any other exception. -/

/-- Outcome of the fallible part of one loop body (pipeline plus
`websocket.send`). -/
inductive SendOutcome
  | ok
  | connClosed
  | exc
  deriving Repr, DecidableEq

/-- Result of one loop iteration: did the loop `break` (connection
closed), the new `use_test_fallback` flag, and whether a FrameBlob was
sent (`some true` = synthetic frame, `some false` = real frame). -/
structure StepOut where
  closed : Bool
  fallback : Bool
  emitted : Option Bool
  deriving Repr, DecidableEq

/-- One iteration of the `frame_stream` body.  `testPattern` is the
global `TEST_PATTERN`; `fallback` is the session-local
`use_test_fallback`.  On the real path (`fallback = false`):
`cap is None` → sleep and `continue` (line 227-229); `cap.read()` not ok
→ sleep and `continue` (lines 231-234); otherwise run the pipeline and
send.  `websockets.ConnectionClosed` breaks the loop (lines 292-294);
any other exception sets `use_test_fallback = True` (lines 295-298).  On
the fallback path a synthetic frame is produced and sent, and after a
successful send the flag is reset to probe the real path again unless
`TEST_PATTERN` is set (lines 278-279). -/
def frameStreamStep (testPattern fallback capAvail readOk : Bool)
    (send : SendOutcome) : StepOut :=
  if fallback then
    match send with
    | .ok => ⟨false, testPattern, some true⟩
    | .connClosed => ⟨true, fallback, none⟩
    | .exc => ⟨false, true, none⟩
  else
    if !capAvail then ⟨false, fallback, none⟩
    else if !readOk then ⟨false, fallback, none⟩
    else
      match send with
      | .ok => ⟨false, false, some false⟩
      | .connClosed => ⟨true, fallback, none⟩
      | .exc => ⟨false, true, none⟩

/-- Run the `frame_stream` loop over a finite trace of environment
rounds `(capAvail, readOk, sendOutcome)`.  Returns the final
`use_test_fallback` flag, the list of emitted frames (`true` =
synthetic) in order, and whether the loop exited via
`ConnectionClosed`. -/
def runStream (testPattern : Bool) :
    Bool → List (Bool × Bool × SendOutcome) → Bool × List Bool × Bool
  | fallback, [] => (fallback, [], false)
  | fallback, e :: es =>
    let o := frameStreamStep testPattern fallback e.1 e.2.1 e.2.2
    if o.closed then (o.fallback, [], true)
    else
      let r := runStream testPattern o.fallback es
      (r.1, (match o.emitted with
             | some b => b :: r.2.1
             | none => r.2.1), r.2.2)

/-- C4 fails on the code: over a trace in which the capture source
persistently returns "no frame" (`cap.read` fails on every attempt,
here five rounds), the session does NOT transition to the synthetic
fallback and does NOT emit any FrameBlob — `use_test_fallback` stays
`false` and the emissions list is empty (the loop only sleeps and
retries). -/
theorem frameStream_noFrame_counterexample :
    ¬ ((runStream false false
          (List.replicate 5 (true, false, SendOutcome.ok))).1 = true ∧
       (runStream false false
          (List.replicate 5 (true, false, SendOutcome.ok))).2.1 ≠ []) := by
  decide

/-- C4 amended: if `cap.read` persistently reports failure, each
iteration of `frame_stream` sleeps and retries: no FrameBlob is emitted,
the session never transitions to the synthetic fallback, and the
connection is never closed by this condition.  (Fallback to the
synthetic generator is triggered only by an exception, after which
frames are emitted again, synthetically.) -/
theorem frameStream_noFrame_retries (n : Nat) :
    runStream false false
        (List.replicate n (true, false, SendOutcome.ok)) = (false, [], false) ∧
    (frameStreamStep false false true true SendOutcome.exc).fallback = true ∧
    (frameStreamStep false true true false SendOutcome.ok).emitted
      = some true := by
  refine ⟨?_, rfl, rfl⟩
  induction n with
  | zero => rfl
  | succ k ih =>
    rw [List.replicate_succ]
    simpa [runStream, frameStreamStep] using ih

/-! ### Camera open/switch (`open_camera`, lines 181-193) -/

/-- A `cv2.VideoCapture` object: its device index and whether it is
currently open (`release()` closes it). -/
structure Handle where
  index : Nat
  isOpened : Bool
  deriving Repr, DecidableEq

/-- The module globals `cap` and `resolved_index`. -/
structure CamState where
  cap : Option Handle
  resolvedIndex : Nat
  deriving Repr, DecidableEq

/-- Observable camera-registry actions, used to state ordering. -/
inductive CamEvent
  | release (idx : Nat)
  | openAttempt (idx : Nat)
  deriving Repr, DecidableEq

/-- Embedding of `open_camera(index)` (lines 181-193).  `succ` abstracts
whether `cv2.VideoCapture(index).isOpened()` succeeds for a given index.
The code first releases the existing handle (lines 183-185), then
constructs the new capture; if it is not opened it raises (line 189-190)
— leaving the globals pointing at the already-released old handle —
otherwise it installs the new handle and index (lines 191-192).
Returns the new globals, whether the call succeeded (`false` = raised),
and the ordered action trace. -/
def open_camera (succ : Nat → Bool) (idx : Nat) (st : CamState) :
    CamState × Bool × List CamEvent :=
  let events := match st.cap with
    | some h => [CamEvent.release h.index, CamEvent.openAttempt idx]
    | none => [CamEvent.openAttempt idx]
  let released : CamState :=
    { st with cap := st.cap.map fun h => { h with isOpened := false } }
  if succ idx then (⟨some ⟨idx, true⟩, idx⟩, true, events)
  else (released, false, events)

/-- C5 fails on the code: with an open handle on device 0, a `set_cam`
to device 1 whose open fails (`succ = fun _ => false`) reports failure
and leaves the previously open handle RELEASED (`isOpened = false`), so
the system is left without a usable camera. -/
theorem open_camera_failure_counterexample :
    (open_camera (fun _ => false) 1 ⟨some ⟨0, true⟩, 0⟩).2.1 = false ∧
    (open_camera (fun _ => false) 1 ⟨some ⟨0, true⟩, 0⟩).1.cap =
      some ⟨0, false⟩ := by
  decide

/-- C5 amended: switching closes the previous handle before attempting
to open the new device; but if the open fails, the previous handle has
already been released and stays released — no usable handle remains (on
success the new handle is open and installed). -/
theorem open_camera_behavior (succ : Nat → Bool) (idx : Nat)
    (st : CamState) :
    (∀ h, st.cap = some h →
      (open_camera succ idx st).2.2 =
        [CamEvent.release h.index, CamEvent.openAttempt idx]) ∧
    (succ idx = false → ∀ h, (open_camera succ idx st).1.cap = some h →
      h.isOpened = false) ∧
    (succ idx = true →
      (open_camera succ idx st).1.cap = some ⟨idx, true⟩ ∧
      (open_camera succ idx st).1.resolvedIndex = idx) := by
  refine ⟨?_, ?_, ?_⟩
  · intro h hcap
    unfold open_camera
    rw [hcap]
    cases succ idx <;> simp
  · intro hfail h hcap
    unfold open_camera at hcap
    rw [hfail] at hcap
    simp at hcap
    cases hst : st.cap with
    | none => rw [hst] at hcap; simp at hcap
    | some h0 =>
      rw [hst] at hcap
      simp at hcap
      rw [← hcap]
  · intro hsucc
    unfold open_camera
    rw [hsucc]
    simp

/-- Witness for `open_camera_behavior`: concrete release-then-open trace
for a failed switch from an open device 0 to device 1. -/
theorem open_camera_behavior_witness :
    (open_camera (fun _ => false) 1 ⟨some ⟨0, true⟩, 0⟩).2.2 =
      [CamEvent.release 0, CamEvent.openAttempt 1] :=
  (open_camera_behavior (fun _ => false) 1 ⟨some ⟨0, true⟩, 0⟩).1
    ⟨0, true⟩ rfl

/-! ### Camera name resolution (`resolve_webcam_index`, lines 133-151) -/

/-- Python `str.strip()`: remove leading and trailing whitespace. -/
def pyStrip (s : List Char) : List Char :=
  ((s.dropWhile Char.isWhitespace).reverse.dropWhile Char.isWhitespace).reverse

/-- Python `str.lower()` (ASCII model). -/
def lowerStr (s : List Char) : List Char := s.map Char.toLower

/-- Python substring test `needle in hay`: some contiguous slice of
`hay` equals `needle` (true for the empty needle). -/
def containsSub (needle hay : List Char) : Bool :=
  (List.range (hay.length + 1)).any fun i =>
    ((hay.drop i).take needle.length) == needle

/-- Embedding of `resolve_webcam_index(name_pref, fallback_index)`
(lines 133-151), with the enumerated device list passed explicitly
(the result of `enumerate_avfoundation_devices()`).  Strip the
preference; empty → fallback (lines 134-136); no devices → fallback
(lines 138-140); first exact match (lines 141-144); first
case-insensitive substring match (lines 145-149); otherwise fallback
(lines 150-151). -/
def resolve_webcam_index (namePref : String) (fallbackIndex : Nat)
    (devs : List (Nat × String)) : Nat :=
  let p := pyStrip namePref.data
  if p = [] then fallbackIndex
  else if devs = [] then fallbackIndex
  else
    match devs.find? (fun d => d.2.data == p) with
    | some d => d.1
    | none =>
      match devs.find? (fun d =>
          containsSub (lowerStr p) (lowerStr d.2.data)) with
      | some d => d.1
      | none => fallbackIndex

/-- C6: with a non-empty (after stripping) name preference and a
non-empty device list, resolution returns the index of the first device
whose name equals the preference exactly; failing that, the first whose
lowered name contains the lowered preference; failing both, the
fallback index.  (`List.find?` returns the first matching element.)
In particular, devices `[(0, "FaceTime HD Camera"), (1, "USB Cam")]`
with preference `"USB Cam"` resolve to index 1. -/
theorem resolve_webcam_index_spec :
    (∀ (pref : String) (fb : Nat) (devs : List (Nat × String)),
      pyStrip pref.data ≠ [] → devs ≠ [] →
      (∀ d, devs.find? (fun d => d.2.data == pyStrip pref.data) = some d →
        resolve_webcam_index pref fb devs = d.1) ∧
      (devs.find? (fun d => d.2.data == pyStrip pref.data) = none →
        ∀ d, devs.find? (fun d => containsSub (lowerStr (pyStrip pref.data))
            (lowerStr d.2.data)) = some d →
          resolve_webcam_index pref fb devs = d.1) ∧
      (devs.find? (fun d => d.2.data == pyStrip pref.data) = none →
        devs.find? (fun d => containsSub (lowerStr (pyStrip pref.data))
            (lowerStr d.2.data)) = none →
        resolve_webcam_index pref fb devs = fb)) ∧
    resolve_webcam_index "USB Cam" 0
      [(0, "FaceTime HD Camera"), (1, "USB Cam")] = 1 := by
  constructor
  · intro pref fb devs hp hd
    refine ⟨?_, ?_, ?_⟩
    · intro d hfind
      unfold resolve_webcam_index
      rw [if_neg hp, if_neg hd, hfind]
    · intro hnone d hfind
      unfold resolve_webcam_index
      rw [if_neg hp, if_neg hd, hnone, hfind]
    · intro hnone1 hnone2
      unfold resolve_webcam_index
      rw [if_neg hp, if_neg hd, hnone1, hnone2]
  · rfl

/-- Witness for `resolve_webcam_index_spec`: the exact-match branch at
the scenario input, with all hypotheses discharged concretely. -/
theorem resolve_webcam_index_spec_witness :
    resolve_webcam_index "USB Cam" 0
      [(0, "FaceTime HD Camera"), (1, "USB Cam")] = 1 :=
  (resolve_webcam_index_spec.1 "USB Cam" 0
      [(0, "FaceTime HD Camera"), (1, "USB Cam")]
      (by decide) (by decide)).1 (1, "USB Cam") (by decide)

/-- C10: a preference that is empty or all whitespace resolves to the
fallback index for every device list — the early-return on the stripped
preference fires before device enumeration is consulted — even though
the empty string substring-matches every device name. -/
theorem resolve_blank_pref_fallback (pref : String) (fb : Nat)
    (devs : List (Nat × String))
    (hblank : pref.data.all Char.isWhitespace = true) :
    resolve_webcam_index pref fb devs = fb ∧
    ∀ hay : String, containsSub [] hay.data = true := by
  constructor
  · have hstrip : pyStrip pref.data = [] := by
      unfold pyStrip
      have h1 : pref.data.dropWhile Char.isWhitespace = [] := by
        rw [List.dropWhile_eq_nil_iff]
        intro x hx
        exact List.all_eq_true.mp hblank x hx
      rw [h1]
      rfl
    unfold resolve_webcam_index
    rw [hstrip]
    rfl
  · intro hay
    unfold containsSub
    rw [List.any_eq_true]
    exact ⟨0, List.mem_range.mpr (Nat.succ_pos _), by simp⟩

/-- Witness for `resolve_blank_pref_fallback`: an all-whitespace
preference with a non-trivial device list returns the fallback 7. -/
theorem resolve_blank_pref_fallback_witness :
    resolve_webcam_index "  " 7 [(3, "Cam")] = 7 :=
  (resolve_blank_pref_fallback "  " 7 [(3, "Cam")] (by decide)).1

/-! ### Temporal smoothing (`frame_stream` line 251) -/

/-- Embedding of
`ema_depth = d_norm if ema_depth is None else
 (EMA_ALPHA * d_norm + (1.0 - EMA_ALPHA) * ema_depth)`:
`alpha` is the value of the global `EMA_ALPHA` at this iteration (the
control channel may have changed it since the last one), `old` is the
persistent `ema_depth` (`none` before the first frame), `raw` the fresh
normalized depth, all on flattened value lists. -/
def emaUpdate (alpha : ℚ) (old : Option (List ℚ)) (raw : List ℚ) : List ℚ :=
  match old with
  | none => raw
  | some o => List.zipWith (fun r e => alpha * r + (1 - alpha) * e) raw o

lemma zipWith_getD (f : ℚ → ℚ → ℚ) :
    ∀ (a b : List ℚ) (i : Nat), i < a.length → i < b.length →
      (List.zipWith f a b).getD i 0 = f (a.getD i 0) (b.getD i 0)
  | [], _, _, h, _ => absurd h (by simp)
  | _ :: _, [], _, _, h => absurd h (by simp)
  | x :: xs, y :: ys, 0, _, _ => rfl
  | x :: xs, y :: ys, i + 1, h1, h2 => by
    simp only [List.zipWith, List.getD_cons_succ]
    exact zipWith_getD f xs ys i (by simpa using h1) (by simpa using h2)

/-- C7: the first pipeline iteration seeds the smoothed depth directly
with the raw normalized depth; every later iteration updates it
elementwise as `new = alpha*raw + (1-alpha)*old` with the current
`emaAlpha`. -/
theorem emaUpdate_spec (alpha : ℚ) (raw o : List ℚ) :
    emaUpdate alpha none raw = raw ∧
    ∀ i : Nat, i < raw.length → i < o.length →
      (emaUpdate alpha (some o) raw).getD i 0 =
        alpha * raw.getD i 0 + (1 - alpha) * o.getD i 0 := by
  refine ⟨rfl, ?_⟩
  intro i h1 h2
  exact zipWith_getD (fun r e => alpha * r + (1 - alpha) * e) raw o i h1 h2

/-- Witness for `emaUpdate_spec`: `alpha = 1/2`, `raw = [4]`,
`old = [2]`, element 0. -/
theorem emaUpdate_spec_witness :
    (emaUpdate (1/2) (some [2]) [4]).getD 0 0 =
      1/2 * List.getD [4] 0 0 + (1 - 1/2) * List.getD [2] 0 0 :=
  (emaUpdate_spec (1/2) [4] [2]).2 0 (by decide) (by decide)

/-! ### Per-session pipeline work (`handler` lines 366-374,
`frame_stream` lines 216-256)

Each accepted connection gets its own `handler`, which spawns its own
`frame_stream` producer task (line 370); each producer iteration on the
real path performs its own `cap.read()` (line 231) and its own MiDaS
inference (lines 242-248) before sending.  There is no shared
once-per-tick pipeline in the code. -/

/-- Resource-consuming actions of one producer iteration. -/
inductive Effect
  | captureRead
  | inference
  | sendBlob
  deriving Repr, DecidableEq

/-- Actions of one real-path `frame_stream` iteration for one session:
read the shared camera, run inference, send the encoded blob. -/
def sessionIterEffects : List Effect :=
  [Effect.captureRead, Effect.inference, Effect.sendBlob]

/-- Actions occurring during one tick with `n` simultaneously active
sessions: every session's independent producer runs its own
iteration. -/
def tickEffects (n : Nat) : List Effect :=
  (List.replicate n sessionIterEffects).flatten

/-- Number of `cap.read()` invocations in one tick with `n` sessions. -/
def capturesPerTick (n : Nat) : Nat :=
  (tickEffects n).count Effect.captureRead

/-- Number of depth-inference invocations in one tick with `n`
sessions. -/
def inferencesPerTick (n : Nat) : Nat :=
  (tickEffects n).count Effect.inference

/-- C8 fails on the code: with two simultaneously active sessions the
tick performs two capture reads and two inference runs, not one shared
computation fanned out. -/
theorem perSession_pipeline_counterexample :
    capturesPerTick 2 = 2 ∧ inferencesPerTick 2 = 2 ∧
    ¬ capturesPerTick 2 = 1 := by
  decide

lemma tickEffects_succ (n : Nat) :
    tickEffects (n + 1) = sessionIterEffects ++ tickEffects n := by
  unfold tickEffects
  rw [List.replicate_succ, List.flatten_cons]

/-- C8 amended: capture and inference are re-invoked independently per
session — with `n` simultaneously active sessions, each tick performs
`n` capture reads and `n` inference runs rather than one fanned-out
computation. -/
theorem perSession_pipeline (n : Nat) :
    capturesPerTick n = n ∧ inferencesPerTick n = n := by
  induction n with
  | zero => exact ⟨rfl, rfl⟩
  | succ k ih =>
    unfold capturesPerTick inferencesPerTick at *
    rw [tickEffects_succ, List.count_append, List.count_append, ih.1, ih.2]
    constructor
    · rw [show List.count Effect.captureRead sessionIterEffects = 1 from rfl]
      omega
    · rw [show List.count Effect.inference sessionIterEffects = 1 from rfl]
      omega

/-! ### TLS startup gating (`build_ssl_context` lines 376-390, `main`
lines 392-419; `app_main.main` lines 156-161) -/

/-- Embedding of `build_ssl_context()`: `USE_TLS = 0` returns no
context (plain `ws://`); with TLS requested, a missing certificate or
key file raises `FileNotFoundError`; otherwise an SSL context is
built. -/
def build_ssl_context (useTLS certExists keyExists : Bool) :
    Except String (Option Unit) :=
  if !useTLS then Except.ok none
  else if !(certExists && keyExists) then
    Except.error "TLS enabled but cert or key not found"
  else Except.ok (some ())

/-- Whether the process reached `websockets.serve` (and over which
scheme) or died during startup. -/
inductive StartupResult
  | serving (tls : Bool)
  | fatal
  deriving Repr, DecidableEq

/-- Embedding of `server.main()` startup order: `build_ssl_context()`
is called (line 400) before `websockets.serve` (line 404), so an
exception there prevents serving entirely. -/
def server_main (useTLS certExists keyExists : Bool) : StartupResult :=
  match build_ssl_context useTLS certExists keyExists with
  | Except.error _ => StartupResult.fatal
  | Except.ok ctx => StartupResult.serving ctx.isSome

/-- Embedding of `app_main.main()` (lines 156-161): if either bundled
cert file is missing it prints and `os._exit(2)` before starting any
server thread; otherwise the servers start (TLS always on there). -/
def app_main (certExists keyExists : Bool) : StartupResult :=
  if !(certExists && keyExists) then StartupResult.fatal
  else StartupResult.serving true

def isFatal : StartupResult → Bool
  | StartupResult.fatal => true
  | StartupResult.serving _ => false

/-- C9: when TLS is requested and the certificate or the key file is
missing, startup is fatal before any connection is served — in both
`server.main` and `app_main.main` — while with TLS disabled the check
is skipped and the server serves plain `ws://` regardless of the
files. -/
theorem tls_startup_fatal :
    (∀ k, isFatal (server_main true false k) = true) ∧
    (∀ c, isFatal (server_main true c false) = true) ∧
    (∀ c k, server_main false c k = StartupResult.serving false) ∧
    server_main true true true = StartupResult.serving true ∧
    (∀ k, isFatal (app_main false k) = true) ∧
    (∀ c, isFatal (app_main c false) = true) := by
  decide

end LiveDepth
